import Mathlib

/-!
Verification development for `src/data_jobs/data_ingestion.py` of the
`data_pipelines` repository.

The Python module is shallowly embedded below.  Conventions used throughout:

* Timestamps are rational numbers of seconds on an absolute, already
  timezone-normalized axis (the code normalizes every `datetime` to the
  US/Central reference zone before subtracting, so a single axis is faithful).
* Wall-clock time inside a collection run is a natural number of seconds;
  the model clock advances exactly at the `asyncio.sleep` calls (fetches and
  in-memory processing are instantaneous in the model).
* Remote objects (`twikit` users/tweets/pages) are records carrying exactly
  the attributes the Python code reads; attributes read through
  `getattr(obj, name, default)` or guarded by `hasattr` are `Option` fields.
* The random values the code draws (`random.random()`, `random.uniform`,
  `random.randint`) are explicit parameters of the model functions.
* File-system effects are modelled twice, at the granularity each claim
  needs: an operation-level trace (`FsOp`) for the write discipline, and an
  event-level trace (`FEvent` / `FeedEv`) for fetch/merge ordering.
-/

namespace DataIngestion

/-! ### File writes

Every persisted document in the module is written by the same two-line
pattern, e.g. lines 88-89, 305-306 and 384-385 of `data_ingestion.py`:

    with open(path, 'w') as f:
        json.dump(obj, f, indent=2)

`open(path, 'w')` truncates the target file in place the moment it is
opened, and `json.dump` then streams the serialized document into it.  The
operation trace of one such write is `jsonDumpWrite`. -/

inductive FsOp where
  | truncate (path : String)
  | writeChunk (path : String) (data : String)
  | rename (src : String) (tgt : String)
deriving DecidableEq

/-- A tiny file-system model: association list from path to contents. -/
def Fs := List (String × String)

def fsRead : List (String × String) → String → Option String
  | [], _ => none
  | e :: rest, p => if e.1 = p then some e.2 else fsRead rest p

def fsSet (fs : List (String × String)) (p v : String) : List (String × String) :=
  (p, v) :: fs.filter (fun e => e.1 ≠ p)

def fsErase (fs : List (String × String)) (p : String) : List (String × String) :=
  fs.filter (fun e => e.1 ≠ p)

def applyFsOp (fs : List (String × String)) : FsOp → List (String × String)
  | FsOp.truncate p => fsSet fs p ""
  | FsOp.writeChunk p d => fsSet fs p (((fsRead fs p).getD "") ++ d)
  | FsOp.rename s t =>
    match fsRead fs s with
    | some v => fsSet (fsErase fs s) t v
    | none => fs

def applyFsOps (fs : List (String × String)) (ops : List FsOp) : List (String × String) :=
  ops.foldl applyFsOp fs

/-- The operation trace of `open(path, 'w'); json.dump(content, f)`:
truncate the target in place, then stream the full serialized content. -/
def jsonDumpWrite (path content : String) : List FsOp :=
  [FsOp.truncate path, FsOp.writeChunk path content]

/-- Does this operation touch (create, modify or replace) the given path? -/
def touchesPath : FsOp → String → Bool
  | FsOp.truncate p, q => p == q
  | FsOp.writeChunk p _, q => p == q
  | FsOp.rename _ t, q => t == q

/-- Formalization of the write discipline the specification describes: the
full content goes to a sibling temporary path and the final operation
atomically renames it over the target, no earlier operation touching the
target itself. -/
def isTempThenRename (target : String) (ops : List FsOp) : Bool :=
  match ops.getLast? with
  | some (FsOp.rename src tgt) =>
    tgt == target && src != target && ops.dropLast.all (fun op => !(touchesPath op target))
  | _ => false

/-! ### Session-log entries and the schedule gate

`log_session_data` (lines 62-89) builds a dict from the session counters,
the status and the `additional_data` dict, appends it to the list parsed
from `logging.json` and rewrites that file.  The fields a claim ever reads
are modelled; absent optional payload fields are `none`, matching
`dict.get` defaults. -/

structure LogEntry where
  timestamp : Option ℚ
  status : String
  following_collected : Option Int
  reason : Option String
  tweets_collected : Option Int
  final_following_count : Option Int
  final_tweets_count : Option Int
  success : Option Bool
deriving DecidableEq

/-- The `additional_data` dict merged into a log entry (lines 80-81). -/
structure AdditionalData where
  following_collected : Option Int := none
  reason : Option String := none
  tweets_collected : Option Int := none
  final_following_count : Option Int := none
  final_tweets_count : Option Int := none
  success : Option Bool := none
deriving DecidableEq

def mk_log_entry (now : ℚ) (status : String) (extra : AdditionalData) : LogEntry :=
  { timestamp := some now
    status := status
    following_collected := extra.following_collected
    reason := extra.reason
    tweets_collected := extra.tweets_collected
    final_following_count := extra.final_following_count
    final_tweets_count := extra.final_tweets_count
    success := extra.success }

/-- `get_last_following_run` (lines 104-120) scans the parsed log in
reverse order for the most recent entry whose status is
`following_complete` and whose `following_collected` (default 0) is
positive, returning its parsed timestamp; an eligible entry without a
timestamp is skipped and the scan continues with older entries.  This
helper is the scan over the already-reversed list. -/
def lastRunScan : List LogEntry → Option ℚ
  | [] => none
  | e :: rest =>
    if e.status = "following_complete" ∧ 0 < e.following_collected.getD 0 then
      match e.timestamp with
      | some ts => some ts
      | none => lastRunScan rest
    else lastRunScan rest

def get_last_following_run (logs : List LogEntry) : Option ℚ :=
  lastRunScan logs.reverse

/-- `should_run_following` (lines 123-154) as a function of the parsed log,
the current time `now` (seconds, reference zone) and the uniform draw
`r = random.random()`.  `hours_since` is `(now - last_run)/3600` exactly as
in line 142. -/
def should_run_following (logs : List LogEntry) (now r : ℚ) : Bool :=
  match get_last_following_run logs with
  | none => true
  | some lastRun =>
    if 168 < (now - lastRun) / 3600 then true
    else if 72 ≤ (now - lastRun) / 3600 then
      decide (r < ((now - lastRun) / 3600 - 72) / 96)
    else false

/-! ### The social-graph collector `get_my_following` (lines 233-311)

A remote followed account carries the attributes the code reads
(`friend.id`, `friend.screen_name`, `friend.name` and
`getattr(friend, 'description', '')`).  A page is the iterable `following`
object together with its `next_cursor` attribute. -/

structure Friend where
  id : Nat
  screen_name : String
  name : String
  description : Option String
deriving DecidableEq

/-- The projected record appended to `following.json` (lines 265-271). -/
structure FriendInfo where
  username : String
  url : String
  name : String
  description : String
  id : Nat
deriving DecidableEq

def friendInfoOf (f : Friend) : FriendInfo :=
  { username := f.screen_name
    url := "https://twitter.com/" ++ f.screen_name
    name := f.name
    description := f.description.getD ""
    id := f.id }

structure FollowPage where
  friends : List Friend
  next_cursor : Option String
deriving DecidableEq

/-- The per-page dedup-and-project loop (lines 262-274): each friend whose
id is not in `existing_ids` is projected and buffered and its id added to
the set.  Returns the page's buffer, the grown id set, and
`page_new_count`. -/
def processFriends : List Nat → List Friend → List FriendInfo × List Nat × Nat
  | ids, [] => ([], ids, 0)
  | ids, f :: rest =>
    if f.id ∈ ids then processFriends ids rest
    else
      let r := processFriends (f.id :: ids) rest
      (friendInfoOf f :: r.1, r.2.1, r.2.2 + 1)

def max_empty_pages : Nat := 2

/-- Events of a following run, in order: page fetches (`client.get_user_following`
or `following.next()`) and writes of `following.json`. -/
inductive FEvent where
  | fetch
  | wrote (doc : List FriendInfo)
deriving DecidableEq

/-- The `while True` pagination loop (lines 261-302), error-free path: the
script lists the pages the successive `following.next()` calls return.
Loop order is exactly the source's: process the current page, break when
the page carries no cursor, break when a zero-new page pushes the
consecutive-empty counter to `max_empty_pages`, otherwise fetch the next
page (a zero-new page increments the counter, a page with new users resets
it to 0).  Returns the accumulated `new_following` buffer and the fetch
events of the loop. -/
def followingLoop : List FollowPage → FollowPage → List Nat → List FriendInfo → Nat →
    List FriendInfo × List FEvent
  | script, page, ids, acc, empties =>
    let pr := processFriends ids page.friends
    let acc2 := acc ++ pr.1
    if page.next_cursor.isNone then (acc2, [])
    else if pr.2.2 = 0 ∧ max_empty_pages ≤ empties + 1 then (acc2, [])
    else
      match script with
      | [] => (acc2, [])
      | p :: rest =>
        let r := followingLoop rest p pr.2.1 acc2 (if pr.2.2 = 0 then empties + 1 else 0)
        (r.1, FEvent.fetch :: r.2)

structure FollowResult where
  all_data : List FriendInfo
  new_following : List FriendInfo
  trace : List FEvent
deriving DecidableEq

/-- `get_my_following`, error-free path: load `following.json` (`existing`
is its parsed content; a missing or corrupt file is the `[]` document),
build `existing_ids`, fetch the first page, run the pagination loop, then
write `existing_data + new_following` back once (lines 304-306). -/
def get_my_following_run (existing : List FriendInfo) (firstPage : FollowPage)
    (script : List FollowPage) : FollowResult :=
  let existing_ids := existing.map (·.id)
  let r := followingLoop script firstPage existing_ids [] 0
  { all_data := existing ++ r.1
    new_following := r.1
    trace := FEvent.fetch :: r.2 ++ [FEvent.wrote (existing ++ r.1)] }

/-! ### The timeline collector `get_my_feed` (lines 314-427)

Remote tweets are records of exactly the attributes the projection
(lines 354-376) reads.  Attributes accessed through
`getattr(x, name, default)` or guarded with `hasattr` are `Option` fields;
opaque JSON payloads (`sizes`, `video_info`, `entities`) are modelled as
strings with the empty string standing for the code's empty-dict
defaults. -/

structure RemoteMedia where
  mtype : Option String
  url : Option String
  media_url_https : Option String
  media_url : Option String
  display_url : Option String
  expanded_url : Option String
  sizes : Option String
  video_info : Option String
deriving DecidableEq

/-- One element of the list `extract_media_info` builds (lines 163-173). -/
structure MediaInfo where
  mtype : String
  url : String
  media_url : String
  display_url : String
  expanded_url : String
  sizes : String
  video_info : Option String
deriving DecidableEq

/-- `extract_media_info` (lines 157-174) applied to an object whose
(possibly absent or `None`) `media` attribute is the given list; absence
and `None` are the empty list, for which the loop body never runs, so the
result is `[]` either way. -/
def extract_media_info (media : List RemoteMedia) : List MediaInfo :=
  media.map fun m =>
    { mtype := m.mtype.getD "unknown"
      url := m.url.getD ""
      media_url := m.media_url_https.getD (m.media_url.getD "")
      display_url := m.display_url.getD ""
      expanded_url := m.expanded_url.getD ""
      sizes := m.sizes.getD ""
      video_info := m.video_info }

structure RemoteUser where
  screen_name : String
  name : String
deriving DecidableEq

/-- The attributes of `tweet.quote` the code reads: `id`, `text`,
`user.screen_name` (guarded by `hasattr(tweet.quote, 'user')`) and the
quote's media list. -/
structure RemoteQuote where
  id : Nat
  text : String
  user : Option RemoteUser
  media : List RemoteMedia
deriving DecidableEq

structure RemoteTweet where
  id : Nat
  text : String
  user : RemoteUser
  created_at : String
  retweet_count : Nat
  favorite_count : Nat
  view_count : Option Nat
  media : List RemoteMedia
  quote : Option RemoteQuote
  entities : Option String
  urls : Option (List String)
  hashtags : Option (List String)
  retweeted_tweet : Option Nat
  lang : Option String
deriving DecidableEq

structure QuoteInfo where
  id : Nat
  text : String
  author : Option String
  media : List MediaInfo
deriving DecidableEq

/-- The persisted tweet record `tweet_info` (lines 354-376). -/
structure TweetInfo where
  id : Nat
  text : String
  author : String
  author_name : String
  created_at : String
  retweet_count : Nat
  favorite_count : Nat
  view_count : Nat
  media : List MediaInfo
  quote_tweet : Option QuoteInfo
  entities : String
  urls : List String
  hashtags : List String
  is_retweet : Bool
  is_quote : Bool
  lang : String
deriving DecidableEq

def tweet_info (t : RemoteTweet) : TweetInfo :=
  { id := t.id
    text := t.text
    author := t.user.screen_name
    author_name := t.user.name
    created_at := t.created_at
    retweet_count := t.retweet_count
    favorite_count := t.favorite_count
    view_count := t.view_count.getD 0
    media := extract_media_info t.media
    quote_tweet :=
      match t.quote with
      | some q =>
        some { id := q.id
               text := q.text
               author := (q.user.map (·.screen_name))
               media := extract_media_info q.media }
      | none => none
    entities := t.entities.getD ""
    urls := t.urls.getD []
    hashtags := t.hashtags.getD []
    is_retweet := t.retweeted_tweet.isSome
    is_quote := t.quote.isSome
    lang := t.lang.getD "unknown" }

/-- The per-page dedup-and-project loop over a timeline page
(lines 347-378): tweets whose id is already in `existing_tweets` are
skipped, new ones are projected, buffered, and their ids added. -/
def processTweets : List Nat → List RemoteTweet → List TweetInfo × List Nat
  | seen, [] => ([], seen)
  | seen, t :: rest =>
    if t.id ∈ seen then processTweets seen rest
    else
      let r := processTweets (t.id :: seen) rest
      (tweet_info t :: r.1, r.2)

/-- The `tweets.json` document: calendar-day key (modelled as a day index
in the reference timezone) mapped to that day's ordered tweet list. -/
def Doc := List (Nat × List TweetInfo)

def docLookup : List (Nat × List TweetInfo) → Nat → Option (List TweetInfo)
  | [], _ => none
  | e :: rest, k => if e.1 = k then some e.2 else docLookup rest k

/-- `existing_data[current_date].extend(batch_tweets)`: extend the bucket
of the given key, leaving all other entries untouched. -/
def docAppend : List (Nat × List TweetInfo) → Nat → List TweetInfo → List (Nat × List TweetInfo)
  | [], _, _ => []
  | e :: rest, key, items =>
    if e.1 = key then (e.1, e.2 ++ items) :: docAppend rest key items
    else e :: docAppend rest key items

/-- `datetime.now(cst).strftime('%Y-%m-%d')` as a function of the model
clock: the calendar-day index of an absolute second count in the reference
timezone. -/
def dayOf (t : Nat) : Nat := t / 86400

structure FeedPage where
  tweets : List RemoteTweet
  next_cursor : Option String
deriving DecidableEq

/-- Outcome of one `timeline.next()` attempt (lines 397 and 401-420). -/
inductive FetchResult where
  | page (p : FeedPage)
  | rateLimited
  | serverError
  | badRequest
  | forbidden
  | unexpected
deriving DecidableEq

/-- Events of a feed run: fetch attempts, stamped with the clock at the
moment the request is issued and with `len(all_tweets)` at that moment,
and rewrites of `tweets.json`. -/
inductive FeedEv where
  | fetchAt (t : Nat) (count : Nat)
  | wrote (doc : List (Nat × List TweetInfo))
deriving DecidableEq

def target_tweets : Nat := 200

def session_duration : Nat := 3600

/-- The feed `while` loop (lines 344-420).  The script lists the successive
`timeline.next()` attempts as pairs `(wait, outcome)`, where `wait` is the
`random.randint(5, 30)` delay slept at line 394-396 before the attempt.
Order per iteration, as in the source: re-check
`len(all_tweets) < target and elapsed < duration`; process the current
page; append the batch under `key` and rewrite `tweets.json`; stop if the
page has no cursor; re-check the budget (line 393); sleep `wait`, issue
the fetch.  A successful fetch installs the new page; `TooManyRequests`,
`ServerError` and unexpected errors sleep their cooldown (300 s / 30 s /
10 s) and re-enter the loop with the same page; `BadRequest` and
`Forbidden` break.  The clock advances exactly at the sleeps. -/
def feedLoop (key t0 : Nat) : List (Nat × FetchResult) → FeedPage → Nat → List TweetInfo →
    List Nat → List (Nat × List TweetInfo) →
    List (Nat × List TweetInfo) × List TweetInfo × List FeedEv
  | [], page, t, allTweets, seen, doc =>
    -- With no remaining fetch outcomes the iteration cannot continue past
    -- its merge: whether the loop stops at the cursor check, the budget
    -- re-check or the (model-boundary) exhausted script, the iteration has
    -- already processed the page and rewritten the document.
    if allTweets.length < target_tweets ∧ t - t0 < session_duration then
      let pr := processTweets seen page.tweets
      (docAppend doc key pr.1, allTweets ++ pr.1, [FeedEv.wrote (docAppend doc key pr.1)])
    else (doc, allTweets, [])
  | (w, res) :: rest, page, t, allTweets, seen, doc =>
    if allTweets.length < target_tweets ∧ t - t0 < session_duration then
      let pr := processTweets seen page.tweets
      let all2 := allTweets ++ pr.1
      let doc2 := docAppend doc key pr.1
      if page.next_cursor.isNone then (doc2, all2, [FeedEv.wrote doc2])
      else if all2.length < target_tweets ∧ t - t0 < session_duration then
        match res with
        | FetchResult.page p =>
          let r := feedLoop key t0 rest p (t + w) all2 pr.2 doc2
          (r.1, r.2.1, FeedEv.wrote doc2 :: FeedEv.fetchAt (t + w) all2.length :: r.2.2)
        | FetchResult.rateLimited =>
          let r := feedLoop key t0 rest page (t + w + 300) all2 pr.2 doc2
          (r.1, r.2.1, FeedEv.wrote doc2 :: FeedEv.fetchAt (t + w) all2.length :: r.2.2)
        | FetchResult.serverError =>
          let r := feedLoop key t0 rest page (t + w + 30) all2 pr.2 doc2
          (r.1, r.2.1, FeedEv.wrote doc2 :: FeedEv.fetchAt (t + w) all2.length :: r.2.2)
        | FetchResult.unexpected =>
          let r := feedLoop key t0 rest page (t + w + 10) all2 pr.2 doc2
          (r.1, r.2.1, FeedEv.wrote doc2 :: FeedEv.fetchAt (t + w) all2.length :: r.2.2)
        | FetchResult.badRequest =>
          (doc2, all2, [FeedEv.wrote doc2, FeedEv.fetchAt (t + w) all2.length])
        | FetchResult.forbidden =>
          (doc2, all2, [FeedEv.wrote doc2, FeedEv.fetchAt (t + w) all2.length])
      else (doc2, all2, [FeedEv.wrote doc2])
    else (doc, allTweets, [])

structure FeedResult where
  doc : List (Nat × List TweetInfo)
  all_tweets : List TweetInfo
  trace : List FeedEv
deriving DecidableEq

/-- `get_my_feed`, error-free initial fetch: `current_date` is computed
once, from the clock at function entry (line 319); the loaded document (or
the fresh one on a missing/corrupt file, lines 329-331) gets an empty
bucket for `current_date` if absent (line 328); `existing_tweets` is the
id set of the `current_date` bucket only (line 325); then the pagination
loop runs.  The initial `client.get_timeline` fetch (line 340) is the
first trace event. -/
def get_my_feed_run (t0 : Nat) (loaded : Option (List (Nat × List TweetInfo)))
    (firstPage : FeedPage) (script : List (Nat × FetchResult)) : FeedResult :=
  let current_date := dayOf t0
  let existing_data :=
    match loaded with
    | some d => if (docLookup d current_date).isNone then d ++ [(current_date, [])] else d
    | none => [(current_date, [])]
  let existing_tweets :=
    match loaded with
    | some d => ((docLookup d current_date).getD []).map (·.id)
    | none => []
  let r := feedLoop current_date t0 script firstPage t0 [] existing_tweets existing_data
  { doc := r.1
    all_tweets := r.2.1
    trace := FeedEv.fetchAt t0 0 :: r.2.2 }

/-- All item ids stored anywhere in a `tweets.json` document. -/
def docIds (d : List (Nat × List TweetInfo)) : List Nat :=
  d.foldr (fun e acc => e.2.map (·.id) ++ acc) []

/-! ### The orchestrator `main_runner` (lines 429-464) and Python call
semantics of the decorated logger

`handle_errors` (lines 32-60) wraps the function it decorates in an
`async def wrapper`.  Applied to the plain (synchronous) function
`log_session_data`, the decorated `log_session_data` therefore becomes an
async function: *calling* it only constructs a coroutine object, and the
wrapped body — read `logging.json`, append the entry, rewrite the file —
runs only when that coroutine is awaited.  `main_runner` invokes
`log_session_data(...)` at lines 435, 441, 448, 455 and 459 without
`await`.  A coroutine models as the log-state transformer its body would
perform when awaited; a statement records whether the call site awaited
it. -/

def Coroutine := List LogEntry → List LogEntry

/-- The decorated `log_session_data`: calling it yields the coroutine
whose awaited effect is "parse `logging.json` (missing/corrupt gives
`[]` — here, the current list), append the entry, rewrite the file". -/
def log_session_data (now : ℚ) (status : String) (extra : AdditionalData) : Coroutine :=
  fun logs => logs ++ [mk_log_entry now status extra]

inductive PyStmt where
  | callNoAwait (c : Coroutine)
  | awaited (c : Coroutine)

/-- Executing one statement against the persisted log: a call without
`await` constructs the coroutine and drops it — its body never runs, the
log file is untouched; an awaited call runs the body. -/
def runStmt (logs : List LogEntry) : PyStmt → List LogEntry
  | PyStmt.callNoAwait _ => logs
  | PyStmt.awaited c => c logs

def runStmts (stmts : List PyStmt) (logs : List LogEntry) : List LogEntry :=
  stmts.foldl runStmt logs

/-- The same statements with every un-awaited call awaited: what the call
sites would do if `await` were present. -/
def awaitAll : List PyStmt → List PyStmt :=
  List.map fun s =>
    match s with
    | PyStmt.callNoAwait c => PyStmt.awaited c
    | s => s

structure MainInputs where
  /-- timestamp used for the entries' payloads -/
  now : ℚ
  /-- the value `should_run_following()` returned at line 438 -/
  gate : Bool
  /-- parsed content of `following.json` -/
  existing : List FriendInfo
  followFirst : FollowPage
  followScript : List FollowPage
  /-- clock at entry of `get_my_feed` -/
  t0 : Nat
  /-- parsed content of `tweets.json`, `none` = missing/corrupt -/
  loadedTweets : Option (List (Nat × List TweetInfo))
  feedFirst : FeedPage
  feedScript : List (Nat × FetchResult)
  /-- content of `logging.json` before the run -/
  log0 : List LogEntry

structure MainResult where
  /-- content of `logging.json` after the run -/
  persisted : List LogEntry
  /-- the entries the four constructed-but-unawaited coroutines would have
  appended, in call order, had each been awaited on an empty log -/
  attempted : List LogEntry
  following_result : List FriendInfo
  new_following : List FriendInfo
  feed : FeedResult

/-- `main_runner` (lines 429-464): log `started`; if the gate allowed it,
run the following collection and log `following_complete` with
`following_collected = len(following_result)` (the function's return value
`all_data`, line 311; `0` for the empty list through the
`if following_result else 0` guard), else log `following_skipped` with
reason `recent_run` and count 0; always run the feed and log
`tweets_complete`; finally log `completed`.  Every `log_session_data`
call site lacks `await`. -/
def main_runner_model (inp : MainInputs) : MainResult :=
  let started := log_session_data inp.now "started" {}
  let fr :=
    if inp.gate then get_my_following_run inp.existing inp.followFirst inp.followScript
    else { all_data := [], new_following := [], trace := [] }
  let following_result := if inp.gate then fr.all_data else []
  let followEntry :=
    if inp.gate then
      log_session_data inp.now "following_complete"
        { following_collected :=
            some (if following_result.isEmpty then 0 else (following_result.length : Int)) }
    else
      log_session_data inp.now "following_skipped"
        { reason := some "recent_run", following_collected := some 0 }
  let feed := get_my_feed_run inp.t0 inp.loadedTweets inp.feedFirst inp.feedScript
  let tweetsEntry :=
    log_session_data inp.now "tweets_complete"
      { tweets_collected :=
          some (if feed.all_tweets.isEmpty then 0 else (feed.all_tweets.length : Int)) }
  let completedEntry :=
    log_session_data inp.now "completed"
      { final_following_count :=
          some (if following_result.isEmpty then 0 else (following_result.length : Int))
        final_tweets_count :=
          some (if feed.all_tweets.isEmpty then 0 else (feed.all_tweets.length : Int))
        success := some true }
  let stmts := [PyStmt.callNoAwait started, PyStmt.callNoAwait followEntry,
    PyStmt.callNoAwait tweetsEntry, PyStmt.callNoAwait completedEntry]
  { persisted := runStmts stmts inp.log0
    attempted := runStmts (awaitAll stmts) []
    following_result := following_result
    new_following := if inp.gate then fr.new_following else []
    feed := feed }

/-! ### Trace checkers formalizing the claims' ordering properties -/

/-- "Each page's buffer is merged into the store before the next page is
requested", on a following-run trace: the flag says a write has occurred
since the last fetch (initially true: the first fetch needs no preceding
merge). -/
def followFetchesPreceded : Bool → List FEvent → Bool
  | _, [] => true
  | _, FEvent.wrote _ :: r => followFetchesPreceded true r
  | ok, FEvent.fetch :: r => ok && followFetchesPreceded false r

/-- The same checker on a feed-run trace. -/
def feedFetchesPreceded : Bool → List FeedEv → Bool
  | _, [] => true
  | _, FeedEv.wrote _ :: r => feedFetchesPreceded true r
  | ok, FeedEv.fetchAt _ _ :: r => ok && feedFetchesPreceded false r

/-! ### Concrete inputs for counterexamples and witnesses -/

def mkFriend (i : Nat) : Friend :=
  { id := i, screen_name := "user", name := "User", description := none }

def mkTweet (i : Nat) : RemoteTweet :=
  { id := i
    text := "hello"
    user := { screen_name := "author", name := "Author" }
    created_at := "Mon Jan 01 00:00:00 +0000 2026"
    retweet_count := 0
    favorite_count := 0
    view_count := none
    media := []
    quote := none
    entities := none
    urls := none
    hashtags := none
    retweeted_tweet := none
    lang := none }

/-- A cursor-bearing, empty timeline page. -/
def emptyFeedPage : FeedPage := { tweets := [], next_cursor := some "cursor" }

/-- Script driving the feed loop across its deadline: eleven rate-limited
attempts (5 s wait + 300 s cooldown each) bring the clock to 3355 s, eight
successful pages at 30 s waits bring it to 3595 s, and one final 30 s wait
puts the last fetch at 3625 s — past the 3600 s budget. -/
def lateFetchScript : List (Nat × FetchResult) :=
  List.replicate 11 (5, FetchResult.rateLimited) ++
    List.replicate 8 (30, FetchResult.page emptyFeedPage) ++
      [(30, FetchResult.page emptyFeedPage)]

/-- A log entry as `log_session_data` would build it for a successful
following run at timestamp 0 (counts recorded as positive). -/
def completeEntry : LogEntry :=
  mk_log_entry 0 "following_complete" { following_collected := some 5 }

/-- A `started` entry: not eligible for the schedule-gate scan. -/
def startedEntry : LogEntry := mk_log_entry 0 "started" {}

/-- Orchestrator inputs for a successful run over an empty store and an
absent log: gate allowed, one new account, one new tweet. -/
def c1Inputs : MainInputs :=
  { now := 0
    gate := true
    existing := []
    followFirst := { friends := [mkFriend 1], next_cursor := none }
    followScript := []
    t0 := 0
    loadedTweets := none
    feedFirst := { tweets := [mkTweet 2], next_cursor := none }
    feedScript := []
    log0 := [] }

/-- A first social-graph page with one new user and a cursor. -/
def c4FirstPage : FollowPage := { friends := [mkFriend 1], next_cursor := some "c" }

/-- A terminal social-graph page with one new user. -/
def c4NextPage : FollowPage := { friends := [mkFriend 2], next_cursor := none }

/-- A `tweets.json` document holding tweet id 1 under day bucket 0. -/
def c3Loaded : List (Nat × List TweetInfo) := [(0, [tweet_info (mkTweet 1)])]

/-- A terminal timeline page that re-serves tweet id 1. -/
def c3Page : FeedPage := { tweets := [mkTweet 1], next_cursor := none }

/-- A timeline first page with tweet id 5 and a cursor. -/
def c7FirstPage : FeedPage := { tweets := [mkTweet 5], next_cursor := some "c" }

/-- One further timeline page (tweet id 7), reached after a 30-second
wait. -/
def c7Script : List (Nat × FetchResult) :=
  [(30, FetchResult.page { tweets := [mkTweet 7], next_cursor := none })]

/-- Orchestrator inputs with three accounts already persisted and a run
collecting zero new ones. -/
def c8Inputs : MainInputs :=
  { now := 0
    gate := true
    existing := [friendInfoOf (mkFriend 1), friendInfoOf (mkFriend 2), friendInfoOf (mkFriend 3)]
    followFirst := { friends := [mkFriend 1], next_cursor := none }
    followScript := []
    t0 := 0
    loadedTweets := none
    feedFirst := { tweets := [], next_cursor := none }
    feedScript := []
    log0 := [] }

/-- The same inputs with the gate suppressing the social-graph run. -/
def c8SkipInputs : MainInputs :=
  { c8Inputs with gate := false }

/-! ### Helper lemmas -/

theorem lastRunScan_eq_none (l : List LogEntry)
    (h : ∀ e ∈ l, ¬(e.status = "following_complete" ∧ 0 < e.following_collected.getD 0)) :
    lastRunScan l = none := by
  induction l with
  | nil => rfl
  | cons e rest ih =>
    simp only [lastRunScan]
    rw [if_neg (h e (by simp))]
    exact ih (fun x hx => h x (by simp [hx]))

@[simp] theorem friendInfoOf_id (f : Friend) : (friendInfoOf f).id = f.id := rfl

@[simp] theorem tweet_info_id (t : RemoteTweet) : (tweet_info t).id = t.id := rfl

/-- Per-page processing of friends: the buffered ids are mutually distinct
and fresh with respect to the incoming dedup set, the outgoing set is the
union of the two, and `page_new_count` is the buffer's length. -/
theorem processFriends_spec (fs : List Friend) : ∀ ids : List Nat,
    ((processFriends ids fs).1.map (·.id)).Nodup
    ∧ (∀ i ∈ (processFriends ids fs).1.map (·.id), i ∉ ids)
    ∧ (∀ x, x ∈ (processFriends ids fs).2.1 ↔ x ∈ (processFriends ids fs).1.map (·.id) ∨ x ∈ ids)
    ∧ (processFriends ids fs).2.2 = (processFriends ids fs).1.length := by
  induction fs with
  | nil => intro ids; simp [processFriends]
  | cons f rest ih =>
    intro ids
    by_cases hmem : f.id ∈ ids
    · simpa only [processFriends, if_pos hmem] using ih ids
    · obtain ⟨h1, h2, h3, h4⟩ := ih (f.id :: ids)
      simp only [processFriends, if_neg hmem, List.map_cons, friendInfoOf_id,
        List.nodup_cons, List.mem_cons, List.length_cons]
      refine ⟨⟨?_, h1⟩, ?_, ?_, ?_⟩
      · intro hin
        exact (h2 _ hin) (by simp)
      · rintro i (rfl | hi)
        · exact hmem
        · intro hids
          exact (h2 _ hi) (by simp [hids])
      · intro x
        rw [h3 x]
        simp only [List.mem_cons]
        tauto
      · omega

/-- A page contributing zero new users leaves the buffer and the dedup set
structurally unchanged. -/
theorem processFriends_zero (fs : List Friend) : ∀ ids, (processFriends ids fs).2.2 = 0 →
    processFriends ids fs = ([], ids, 0) := by
  induction fs with
  | nil => intro ids _; rfl
  | cons f rest ih =>
    intro ids h
    by_cases hmem : f.id ∈ ids
    · simp only [processFriends, if_pos hmem] at h ⊢
      exact ih ids h
    · simp only [processFriends, if_neg hmem] at h
      omega

/-- Per-page processing of tweets: the batch's ids are mutually distinct
and fresh with respect to `existing_tweets`, and the outgoing set is the
union. -/
theorem processTweets_spec (ts : List RemoteTweet) : ∀ seen : List Nat,
    ((processTweets seen ts).1.map (·.id)).Nodup
    ∧ (∀ i ∈ (processTweets seen ts).1.map (·.id), i ∉ seen)
    ∧ (∀ x, x ∈ (processTweets seen ts).2 ↔ x ∈ (processTweets seen ts).1.map (·.id) ∨ x ∈ seen) := by
  induction ts with
  | nil => intro seen; simp [processTweets]
  | cons t rest ih =>
    intro seen
    by_cases hmem : t.id ∈ seen
    · simpa only [processTweets, if_pos hmem] using ih seen
    · obtain ⟨h1, h2, h3⟩ := ih (t.id :: seen)
      simp only [processTweets, if_neg hmem, List.map_cons, tweet_info_id,
        List.nodup_cons, List.mem_cons]
      refine ⟨⟨?_, h1⟩, ?_, ?_⟩
      · intro hin
        exact (h2 _ hin) (by simp)
      · rintro i (rfl | hi)
        · exact hmem
        · intro hids
          exact (h2 _ hi) (by simp [hids])
      · intro x
        rw [h3 x]
        simp only [List.mem_cons]
        tauto

theorem docAppend_lookup_ne (d : List (Nat × List TweetInfo)) (key k : Nat)
    (items : List TweetInfo) (h : k ≠ key) :
    docLookup (docAppend d key items) k = docLookup d k := by
  induction d with
  | nil => rfl
  | cons e rest ih =>
    by_cases he : e.1 = key
    · simp only [docAppend, if_pos he, docLookup]
      rw [if_neg (by omega), if_neg (by omega)]
      exact ih
    · simp only [docAppend, if_neg he, docLookup]
      by_cases hk : e.1 = k
      · rw [if_pos hk, if_pos hk]
      · rw [if_neg hk, if_neg hk]
        exact ih

theorem docAppend_lookup_eq (d : List (Nat × List TweetInfo)) (key : Nat)
    (items l : List TweetInfo) (h : docLookup d key = some l) :
    docLookup (docAppend d key items) key = some (l ++ items) := by
  induction d with
  | nil => simp [docLookup] at h
  | cons e rest ih =>
    by_cases he : e.1 = key
    · simp only [docLookup, if_pos he] at h
      simp only [docAppend, if_pos he, docLookup, if_pos he]
      rw [Option.some_inj] at h
      rw [h]
    · simp only [docLookup, if_neg he] at h
      simp only [docAppend, if_neg he, docLookup, if_neg he]
      exact ih h

theorem docLookup_append_ne (d : List (Nat × List TweetInfo)) (key k : Nat)
    (items : List TweetInfo) (h : k ≠ key) :
    docLookup (d ++ [(key, items)]) k = docLookup d k := by
  induction d with
  | nil =>
    simp only [List.nil_append, docLookup]
    rw [if_neg (by omega)]
  | cons e rest ih =>
    simp only [List.cons_append, docLookup]
    by_cases hk : e.1 = k
    · rw [if_pos hk, if_pos hk]
    · rw [if_neg hk, if_neg hk]
      exact ih

theorem docLookup_append_self (d : List (Nat × List TweetInfo)) (key : Nat)
    (items : List TweetInfo) (h : docLookup d key = none) :
    docLookup (d ++ [(key, items)]) key = some items := by
  induction d with
  | nil => simp [docLookup]
  | cons e rest ih =>
    simp only [docLookup] at h
    by_cases hk : e.1 = key
    · rw [if_pos hk] at h
      exact absurd h (by simp)
    · rw [if_neg hk] at h
      simp only [List.cons_append, docLookup, if_neg hk]
      exact ih h

/-- The pagination loop only ever appends to `new_following`: its result
is the incoming accumulator followed by a block of projected users whose
ids are mutually distinct and absent from the incoming dedup set. -/
theorem followingLoop_newpart (script : List FollowPage) : ∀ page ids acc empties,
    ∃ D, (followingLoop script page ids acc empties).1 = acc ++ D
      ∧ (D.map (·.id)).Nodup
      ∧ ∀ i ∈ D.map (·.id), i ∉ ids := by
  induction script with
  | nil =>
    intro page ids acc empties
    obtain ⟨h1, h2, h3, h4⟩ := processFriends_spec page.friends ids
    refine ⟨(processFriends ids page.friends).1, ?_, h1, h2⟩
    simp only [followingLoop]
    split_ifs <;> rfl
  | cons p rest ih =>
    intro page ids acc empties
    obtain ⟨h1, h2, h3, h4⟩ := processFriends_spec page.friends ids
    simp only [followingLoop]
    split_ifs with hc he hz
    · exact ⟨(processFriends ids page.friends).1, rfl, h1, h2⟩
    · exact ⟨(processFriends ids page.friends).1, rfl, h1, h2⟩
    · obtain ⟨D2, hD2, hn2, hf2⟩ := ih p (processFriends ids page.friends).2.1
        (acc ++ (processFriends ids page.friends).1) (empties + 1)
      refine ⟨(processFriends ids page.friends).1 ++ D2, ?_, ?_, ?_⟩
      · dsimp only
        rw [hD2, List.append_assoc]
      · rw [List.map_append]
        refine List.Nodup.append h1 hn2 ?_
        intro a ha hb
        exact hf2 a hb ((h3 a).mpr (Or.inl ha))
      · intro i hi
        rw [List.map_append, List.mem_append] at hi
        rcases hi with hi | hi
        · exact h2 i hi
        · intro hin
          exact hf2 i hi ((h3 i).mpr (Or.inr hin))
    · obtain ⟨D2, hD2, hn2, hf2⟩ := ih p (processFriends ids page.friends).2.1
        (acc ++ (processFriends ids page.friends).1) 0
      refine ⟨(processFriends ids page.friends).1 ++ D2, ?_, ?_, ?_⟩
      · dsimp only
        rw [hD2, List.append_assoc]
      · rw [List.map_append]
        refine List.Nodup.append h1 hn2 ?_
        intro a ha hb
        exact hf2 a hb ((h3 a).mpr (Or.inl ha))
      · intro i hi
        rw [List.map_append, List.mem_append] at hi
        rcases hi with hi | hi
        · exact h2 i hi
        · intro hin
          exact hf2 i hi ((h3 i).mpr (Or.inr hin))

/-- All loop events are fetches: the loop itself never writes the store. -/
theorem followingLoop_trace_fetches (script : List FollowPage) : ∀ page ids acc empties,
    ∀ ev ∈ (followingLoop script page ids acc empties).2, ev = FEvent.fetch := by
  induction script with
  | nil =>
    intro page ids acc empties ev hev
    simp only [followingLoop] at hev
    split_ifs at hev <;> simp at hev
  | cons p rest ih =>
    intro page ids acc empties ev hev
    simp only [followingLoop] at hev
    split_ifs at hev
    · simp at hev
    · simp at hev
    · dsimp only at hev
      rcases List.mem_cons.mp hev with rfl | hev
      · rfl
      · exact ih p _ _ _ ev hev
    · dsimp only at hev
      rcases List.mem_cons.mp hev with rfl | hev
      · rfl
      · exact ih p _ _ _ ev hev

/-- Frame property of the feed loop: buckets other than the session's key
are never modified. -/
theorem feedLoop_frame (key t0 : Nat) (script : List (Nat × FetchResult)) :
    ∀ page t allTweets seen doc k, k ≠ key →
      docLookup (feedLoop key t0 script page t allTweets seen doc).1 k = docLookup doc k := by
  induction script with
  | nil =>
    intro page t all seen doc k hk
    simp only [feedLoop]
    split_ifs <;> simp [docAppend_lookup_ne _ _ _ _ hk]
  | cons head rest ih =>
    obtain ⟨w, res⟩ := head
    intro page t all seen doc k hk
    have hstep := docAppend_lookup_ne doc key k (processTweets seen page.tweets).1 hk
    simp only [feedLoop]
    cases res <;> split_ifs <;>
      first
        | rfl
        | exact hstep
        | (dsimp only; rw [ih _ _ _ _ _ _ hk]; exact hstep)

/-- The session-key bucket after the loop is the initial bucket prefix `b`
followed by everything in `all_tweets`. -/
theorem feedLoop_bucket (key t0 : Nat) (script : List (Nat × FetchResult)) :
    ∀ page t allTweets seen doc b,
      docLookup doc key = some (b ++ allTweets) →
      docLookup (feedLoop key t0 script page t allTweets seen doc).1 key
        = some (b ++ (feedLoop key t0 script page t allTweets seen doc).2.1) := by
  induction script with
  | nil =>
    intro page t all seen doc b hb
    simp only [feedLoop]
    split_ifs
    · dsimp only
      rw [docAppend_lookup_eq _ _ _ _ hb, List.append_assoc]
    · exact hb
  | cons head rest ih =>
    obtain ⟨w, res⟩ := head
    intro page t all seen doc b hb
    have hstep : docLookup (docAppend doc key (processTweets seen page.tweets).1) key
        = some (b ++ (all ++ (processTweets seen page.tweets).1)) := by
      rw [docAppend_lookup_eq _ _ _ _ hb, List.append_assoc]
    simp only [feedLoop]
    cases res <;> split_ifs <;>
      first
        | exact hb
        | exact hstep
        | (dsimp only; exact ih _ _ _ _ _ _ hstep)

/-- Dedup invariant of the feed loop: if the session-key bucket has
mutually distinct ids, all of them in `existing_tweets`, this is preserved
by every merge. -/
theorem feedLoop_nodup (key t0 : Nat) (script : List (Nat × FetchResult)) :
    ∀ page t allTweets seen doc l,
      docLookup doc key = some l → (l.map (·.id)).Nodup →
      (∀ i ∈ l.map (·.id), i ∈ seen) →
      ∃ l2, docLookup (feedLoop key t0 script page t allTweets seen doc).1 key = some l2
        ∧ (l2.map (·.id)).Nodup := by
  induction script with
  | nil =>
    intro page t all seen doc l hl hnd hsub
    simp only [feedLoop]
    split_ifs
    · refine ⟨l ++ (processTweets seen page.tweets).1, ?_, ?_⟩
      · dsimp only
        exact docAppend_lookup_eq _ _ _ _ hl
      · rw [List.map_append]
        refine hnd.append (processTweets_spec page.tweets seen).1 ?_
        intro a ha hbmem
        exact (processTweets_spec page.tweets seen).2.1 a hbmem (hsub a ha)
    · exact ⟨l, hl, hnd⟩
  | cons head rest ih =>
    obtain ⟨w, res⟩ := head
    intro page t all seen doc l hl hnd hsub
    have hb2 : docLookup (docAppend doc key (processTweets seen page.tweets).1) key
        = some (l ++ (processTweets seen page.tweets).1) :=
      docAppend_lookup_eq _ _ _ _ hl
    have hnd2 : ((l ++ (processTweets seen page.tweets).1).map (·.id)).Nodup := by
      rw [List.map_append]
      refine hnd.append (processTweets_spec page.tweets seen).1 ?_
      intro a ha hbmem
      exact (processTweets_spec page.tweets seen).2.1 a hbmem (hsub a ha)
    have hsub2 : ∀ i ∈ (l ++ (processTweets seen page.tweets).1).map (·.id),
        i ∈ (processTweets seen page.tweets).2 := by
      intro i hi
      rw [List.map_append, List.mem_append] at hi
      rcases hi with hi | hi
      · exact ((processTweets_spec page.tweets seen).2.2 i).mpr (Or.inr (hsub i hi))
      · exact ((processTweets_spec page.tweets seen).2.2 i).mpr (Or.inl hi)
    simp only [feedLoop]
    cases res <;> split_ifs <;>
      first
        | exact ⟨l, hl, hnd⟩
        | exact ⟨l ++ (processTweets seen page.tweets).1, hb2, hnd2⟩
        | (dsimp only; exact ih _ _ _ _ _ _ hb2 hnd2 hsub2)

/-- Every fetch attempt of the loop is issued below the volume target and
within one wait interval of the budget deadline: the budget is checked
before the pre-fetch sleep, so the fetch time is at most `W` (the largest
wait in the script) past the point where `elapsed < session_duration`
held. -/
theorem feedLoop_fetch_bound (key t0 W : Nat) (script : List (Nat × FetchResult)) :
    ∀ page t allTweets seen doc,
      (∀ e ∈ script, e.1 ≤ W) →
      ∀ tf c, FeedEv.fetchAt tf c ∈ (feedLoop key t0 script page t allTweets seen doc).2.2 →
        c < target_tweets ∧ tf < t0 + session_duration + W := by
  induction script with
  | nil =>
    intro page t all seen doc hW tf c hmem
    simp only [feedLoop] at hmem
    split_ifs at hmem <;> simp at hmem
  | cons head rest ih =>
    obtain ⟨w, res⟩ := head
    intro page t all seen doc hW tf c hmem
    have hw : w ≤ W := by simpa using hW (w, res) (by simp)
    have hWrest : ∀ e ∈ rest, e.1 ≤ W := fun e he => hW e (by simp [he])
    simp only [feedLoop] at hmem
    cases res <;> split_ifs at hmem with hA hB hC <;> simp at hmem <;>
      first
        | (rcases hmem with ⟨rfl, rfl⟩ | h
           · exact ⟨by simpa using hC.1, by omega⟩
           · exact ih _ _ _ _ _ hWrest _ _ h)
        | (obtain ⟨rfl, rfl⟩ := hmem
           exact ⟨by simpa using hC.1, by omega⟩)

/-- Inside the loop every fetch is preceded by a completed rewrite of the
document since the previous fetch. -/
theorem feedLoop_fetches_preceded (key t0 : Nat) (script : List (Nat × FetchResult)) :
    ∀ page t allTweets seen doc,
      feedFetchesPreceded false (feedLoop key t0 script page t allTweets seen doc).2.2 = true := by
  induction script with
  | nil =>
    intro page t all seen doc
    simp only [feedLoop]
    split_ifs <;> simp [feedFetchesPreceded]
  | cons head rest ih =>
    obtain ⟨w, res⟩ := head
    intro page t all seen doc
    simp only [feedLoop]
    cases res <;> split_ifs <;>
      simp [feedFetchesPreceded, ih]

/-! ### Claim theorems -/

/-- C5.  The Schedule Gate as a function of the log, the current time and
the uniform draw `r`: with no eligible `following_complete` entry it
returns true (cold start); past 168 hours it always returns true; below
72 hours it always returns false; in between it returns true exactly when
`r < (hoursSince - 72)/96` — so for a uniform `r` on `[0, 1)` the success
probability is `(hoursSince - 72)/96`, which is 0 at exactly 72 hours and
1 at exactly 168 hours. -/
theorem c5_schedule_gate :
    (∀ logs now r, (∀ e ∈ logs,
        ¬(e.status = "following_complete" ∧ 0 < e.following_collected.getD 0)) →
      should_run_following logs now r = true)
    ∧ (∀ logs now r ts, get_last_following_run logs = some ts →
        168 < (now - ts) / 3600 → should_run_following logs now r = true)
    ∧ (∀ logs now r ts, get_last_following_run logs = some ts →
        (now - ts) / 3600 < 72 → should_run_following logs now r = false)
    ∧ (∀ logs now r ts, get_last_following_run logs = some ts →
        72 ≤ (now - ts) / 3600 → (now - ts) / 3600 ≤ 168 →
        (should_run_following logs now r = true ↔ r < ((now - ts) / 3600 - 72) / 96))
    ∧ (∀ logs now r ts, get_last_following_run logs = some ts →
        (now - ts) / 3600 = 72 → 0 ≤ r → should_run_following logs now r = false)
    ∧ (∀ logs now r ts, get_last_following_run logs = some ts →
        (now - ts) / 3600 = 168 → r < 1 → should_run_following logs now r = true) := by
  refine ⟨?_, ?_, ?_, ?_, ?_, ?_⟩
  · intro logs now r h
    have hnone : get_last_following_run logs = none :=
      lastRunScan_eq_none _ (fun e he => h e (List.mem_reverse.mp he))
    simp [should_run_following, hnone]
  · intro logs now r ts h hgt
    simp [should_run_following, h, hgt]
  · intro logs now r ts h hlt
    simp only [should_run_following, h]
    rw [if_neg (by linarith), if_neg (by linarith)]
  · intro logs now r ts h h72 h168
    simp only [should_run_following, h]
    rw [if_neg (by linarith), if_pos h72]
    simp
  · intro logs now r ts h heq hr
    simp only [should_run_following, h, heq]
    rw [if_neg (by norm_num), if_pos (by norm_num)]
    rw [decide_eq_false_iff_not]
    intro hc
    norm_num at hc
    linarith
  · intro logs now r ts h heq hr
    simp only [should_run_following, h, heq]
    rw [if_neg (by norm_num), if_pos (by norm_num)]
    rw [decide_eq_true_eq]
    norm_num
    linarith

/-- Witness for C5: each conjunct applied at concrete logs, times and
draws (times in seconds; `completeEntry` has timestamp 0). -/
theorem c5_schedule_gate_witness :
    should_run_following [startedEntry] 0 0 = true
    ∧ should_run_following [completeEntry] 608400 (1/2) = true
    ∧ should_run_following [completeEntry] 3600 (1/2) = false
    ∧ (should_run_following [completeEntry] 432000 (1/2) = true
        ↔ (1/2 : ℚ) < ((432000 - 0) / 3600 - 72) / 96)
    ∧ should_run_following [completeEntry] 259200 (1/2) = false
    ∧ should_run_following [completeEntry] 604800 (1/2) = true :=
  ⟨c5_schedule_gate.1 _ _ _ (by decide),
   c5_schedule_gate.2.1 _ _ _ 0 (by decide) (by norm_num),
   c5_schedule_gate.2.2.1 _ _ _ 0 (by decide) (by norm_num),
   c5_schedule_gate.2.2.2.1 _ _ _ 0 (by decide) (by norm_num) (by norm_num),
   c5_schedule_gate.2.2.2.2.1 _ _ _ 0 (by decide) (by norm_num) (by norm_num),
   c5_schedule_gate.2.2.2.2.2 _ _ _ 0 (by decide) (by norm_num) (by norm_num)⟩

theorem fsRead_fsSet (fs : List (String × String)) (p v : String) :
    fsRead (fsSet fs p v) p = some v := by
  simp [fsRead, fsSet]

/-- C2 counterexample.  The document writes are not temp-then-rename: the
operation trace of the source's `open(path, 'w'); json.dump(...)` pattern
does not match the write-temp-then-atomically-rename discipline, and a
crash right after the truncating open leaves the target empty — the
previous valid document `[old]` is not intact. -/
theorem c2_counterexample :
    isTempThenRename "data/raw/following.json"
        (jsonDumpWrite "data/raw/following.json" "[new]") = false
    ∧ fsRead (applyFsOps [("data/raw/following.json", "[old]")]
        ((jsonDumpWrite "data/raw/following.json" "[new]").take 1))
        "data/raw/following.json" ≠ some "[old]" := by
  exact ⟨rfl, by decide⟩

/-- C2 amended.  Every persisted-document write opens the target path
directly in truncating write mode and dumps the full JSON content in
place; no temporary sibling path and no rename is involved, so after the
truncating open and before the dump completes the target reads back
empty (a crash there loses the previous document), while a completed
write leaves exactly the new content. -/
theorem c2_truncating_write (fs : List (String × String)) (path content : String) :
    fsRead (applyFsOps fs ((jsonDumpWrite path content).take 1)) path = some ""
    ∧ fsRead (applyFsOps fs (jsonDumpWrite path content)) path = some content
    ∧ isTempThenRename path (jsonDumpWrite path content) = false := by
  refine ⟨?_, ?_, rfl⟩
  · simp [jsonDumpWrite, applyFsOps, applyFsOp, fsRead_fsSet]
  · simp [jsonDumpWrite, applyFsOps, applyFsOp, fsRead_fsSet]

/-- C1 (code bug).  `main_runner` never persists any Session Log entry:
the decorated `log_session_data` is an async wrapper and every call site
lacks `await`, so the four checkpoint coroutines are constructed and
dropped.  For every input the persisted log is unchanged; in a concrete
successful run starting from an absent log the log stays empty — it
contains no `started`, `following_complete`, `tweets_complete` or
`completed` entry — even though the four coroutine bodies, had they been
awaited, would have appended exactly those entries. -/
theorem c1_no_log_entry_persisted :
    (∀ inp : MainInputs, (main_runner_model inp).persisted = inp.log0)
    ∧ (main_runner_model c1Inputs).persisted = []
    ∧ (main_runner_model c1Inputs).attempted.map (·.status)
        = ["started", "following_complete", "tweets_complete", "completed"] := by
  refine ⟨fun inp => rfl, rfl, rfl⟩

/-- C9.  Social-graph pagination terminates on two consecutive pages with
zero unseen ids: entering with a reset counter, two cursor-bearing pages
that each contribute zero new users make the loop stop right after the
second one — exactly one more fetch happens and the remaining script is
never consulted — and a page containing at least one unseen id resets the
consecutive-empty-page counter, making the outcome independent of the
counter value carried into that page. -/
theorem c9_empty_page_termination :
    (∀ (ids : List Nat) (acc : List FriendInfo) (p1 p2 : FollowPage) (rest : List FollowPage),
      p1.next_cursor.isSome = true → p2.next_cursor.isSome = true →
      (processFriends ids p1.friends).2.2 = 0 → (processFriends ids p2.friends).2.2 = 0 →
      followingLoop (p2 :: rest) p1 ids acc 0 = (acc, [FEvent.fetch]))
    ∧ (∀ (script : List FollowPage) (page : FollowPage) (ids : List Nat)
        (acc : List FriendInfo) (c c' : Nat),
      0 < (processFriends ids page.friends).2.2 →
      followingLoop script page ids acc c = followingLoop script page ids acc c') := by
  constructor
  · intro ids acc p1 p2 rest h1 h2 hz1 hz2
    have e1 := processFriends_zero p1.friends ids hz1
    have e2 := processFriends_zero p2.friends ids hz2
    obtain ⟨v1, hv1⟩ := Option.isSome_iff_exists.mp h1
    obtain ⟨v2, hv2⟩ := Option.isSome_iff_exists.mp h2
    simp [followingLoop, e1, e2, hv1, hv2, max_empty_pages]
    cases rest with
    | nil => simp [followingLoop, e2, hv2, max_empty_pages]
    | cons q qs => simp [followingLoop, e2, hv2, max_empty_pages]
  · intro script page ids acc c c' h
    have hne : (processFriends ids page.friends).2.2 ≠ 0 := by omega
    cases script with
    | nil => simp [followingLoop, hne]
    | cons q qs => simp [followingLoop, hne]

/-- Witness for C9: two cursor-bearing pages with no unseen ids stop the
loop after one further fetch, and a page with one unseen id gives the same
outcome for incoming counter values 0 and 5. -/
theorem c9_empty_page_termination_witness :
    followingLoop [{ friends := [], next_cursor := some "b" }]
        { friends := [], next_cursor := some "a" } [] [] 0 = ([], [FEvent.fetch])
    ∧ followingLoop [] { friends := [mkFriend 1], next_cursor := none } [] [] 0
        = followingLoop [] { friends := [mkFriend 1], next_cursor := none } [] [] 5 :=
  ⟨c9_empty_page_termination.1 [] [] { friends := [], next_cursor := some "a" }
      { friends := [], next_cursor := some "b" } [] rfl rfl rfl rfl,
   c9_empty_page_termination.2 [] { friends := [mkFriend 1], next_cursor := none }
      [] [] 0 5 (by decide)⟩

/-- C4 counterexample.  In a social-graph run whose first page contributes
a new user and carries a cursor, the second page is fetched with no
intervening write: the only write of `following.json` happens once, after
pagination, so the claim that every page's buffer is merged into the
persisted store before the next page is requested fails. -/
theorem c4_counterexample :
    followFetchesPreceded true (get_my_following_run [] c4FirstPage [c4NextPage]).trace = false
    ∧ (get_my_following_run [] c4FirstPage [c4NextPage]).trace
        = [FEvent.fetch, FEvent.fetch,
           FEvent.wrote [friendInfoOf (mkFriend 1), friendInfoOf (mkFriend 2)]] := by
  exact ⟨rfl, rfl⟩

/-- C4 amended.  The timeline collector does merge each page's buffer into
`tweets.json` before requesting the next page (every fetch of the run is
preceded by a completed document rewrite since the previous fetch); the
social-graph collector instead accumulates new users in memory and writes
the merged document exactly once, after pagination terminates — its trace
is a block of fetches followed by the single write of
`existing + new_following` — so a crash mid-run can lose every page
collected so far for the social graph, not at most one in-flight page. -/
theorem c4_merge_granularity :
    (∀ (t0 : Nat) (loaded : Option (List (Nat × List TweetInfo))) (firstPage : FeedPage)
        (script : List (Nat × FetchResult)),
      feedFetchesPreceded true (get_my_feed_run t0 loaded firstPage script).trace = true)
    ∧ (∀ (existing : List FriendInfo) (firstPage : FollowPage) (script : List FollowPage),
      ∃ n, (get_my_following_run existing firstPage script).trace
        = List.replicate n FEvent.fetch
            ++ [FEvent.wrote (get_my_following_run existing firstPage script).all_data]) := by
  constructor
  · intro t0 loaded firstPage script
    have h := feedLoop_fetches_preceded (dayOf t0) t0 script
    simp only [get_my_feed_run, feedFetchesPreceded, Bool.true_and]
    exact h _ _ _ _ _
  · intro existing firstPage script
    have hall := followingLoop_trace_fetches script firstPage (existing.map (·.id)) [] 0
    obtain ⟨m, hm⟩ : ∃ m, (followingLoop script firstPage (existing.map (·.id)) [] 0).2
        = List.replicate m FEvent.fetch :=
      ⟨_, List.eq_replicate_of_mem hall⟩
    refine ⟨m + 1, ?_⟩
    simp only [get_my_following_run, List.replicate_succ, List.cons_append]
    rw [hm]

/-- C3 counterexample.  Tweet id 1 is already persisted under day bucket 0;
a run on day 1 re-fetches it and, because `existing_tweets` is built from
the current day's bucket only, appends it again under day 1: the store now
holds id 1 twice, under two different day keys. -/
theorem c3_counterexample :
    (get_my_feed_run 86400 (some c3Loaded) c3Page []).doc.map
        (fun e => (e.1, e.2.map (·.id)))
      = [(0, [1]), (1, [1])]
    ∧ (docIds (get_my_feed_run 86400 (some c3Loaded) c3Page []).doc).count 1 = 2 := by
  exact ⟨rfl, rfl⟩

/-- C3 amended.  Dedup scope differs per resource: for the social graph,
ids unique across the whole store stay unique across the whole store after
a run (re-fetching an id present anywhere, including in an earlier page of
the same run, never duplicates it); for the timeline, deduplication is
scoped to the current day's bucket — that bucket stays duplicate-free
across pages and runs, but an id persisted under a different day's bucket
by an earlier run is re-added there, duplicating it across buckets. -/
theorem c3_dedup_scope :
    (∀ (existing : List FriendInfo) (firstPage : FollowPage) (script : List FollowPage),
      (existing.map (·.id)).Nodup →
      ((get_my_following_run existing firstPage script).all_data.map (·.id)).Nodup)
    ∧ (∀ (t0 : Nat) (d : List (Nat × List TweetInfo)) (firstPage : FeedPage)
        (script : List (Nat × FetchResult)),
      (((docLookup d (dayOf t0)).getD []).map (·.id)).Nodup →
      ∃ l, docLookup (get_my_feed_run t0 (some d) firstPage script).doc (dayOf t0) = some l
        ∧ (l.map (·.id)).Nodup) := by
  constructor
  · intro existing firstPage script hnd
    obtain ⟨D, hD, hDnd, hDf⟩ :=
      followingLoop_newpart script firstPage (existing.map (·.id)) [] 0
    rw [List.nil_append] at hD
    simp only [get_my_following_run]
    rw [hD, List.map_append]
    exact hnd.append hDnd (fun a ha hb => hDf a hb ha)
  · intro t0 d firstPage script hnd
    rcases hd : docLookup d (dayOf t0) with _ | l0
    · simp only [get_my_feed_run, hd] at hnd ⊢
      simp only [Option.isNone_none, if_true, Option.getD_none, List.map_nil]
      exact feedLoop_nodup _ _ _ _ _ _ _ _ []
        (docLookup_append_self d _ [] hd) (by simp) (by simp)
    · simp only [get_my_feed_run, hd] at hnd ⊢
      simp only [Option.isNone_some, Bool.false_eq_true, if_false, Option.getD_some]
      exact feedLoop_nodup _ _ _ _ _ _ _ _ l0 hd (by simpa using hnd)
        (by intro i hi; simpa using hi)

/-- Witness for C3 amended: a store of one account keeps unique ids after
a run adding one more, and a timeline run on a day whose bucket holds one
tweet keeps that bucket duplicate-free. -/
theorem c3_dedup_scope_witness :
    ((get_my_following_run [friendInfoOf (mkFriend 3)] c4FirstPage []).all_data.map
        (·.id)).Nodup
    ∧ ∃ l, docLookup (get_my_feed_run 0 (some c3Loaded) c3Page []).doc (dayOf 0) = some l
        ∧ (l.map (·.id)).Nodup :=
  ⟨c3_dedup_scope.1 _ _ _ (by decide), c3_dedup_scope.2 0 c3Loaded c3Page [] (by decide)⟩

/-- C10.  Frame property of the merges, given a successfully parsed
existing document: the social-graph write is exactly the prior document's
items in their original order with this run's new items appended after
them, and a timeline merge leaves every date bucket other than the
session's own unchanged, exactly as loaded. -/
theorem c10_merge_frame :
    (∀ (existing : List FriendInfo) (firstPage : FollowPage) (script : List FollowPage),
      (get_my_following_run existing firstPage script).all_data
        = existing ++ (get_my_following_run existing firstPage script).new_following)
    ∧ (∀ (t0 : Nat) (d : List (Nat × List TweetInfo)) (firstPage : FeedPage)
        (script : List (Nat × FetchResult)) (k : Nat), k ≠ dayOf t0 →
      docLookup (get_my_feed_run t0 (some d) firstPage script).doc k = docLookup d k) := by
  constructor
  · intro existing firstPage script
    rfl
  · intro t0 d firstPage script k hk
    rcases hd : docLookup d (dayOf t0) with _ | l0
    · simp only [get_my_feed_run, hd, Option.isNone_none, if_true]
      rw [feedLoop_frame _ _ _ _ _ _ _ _ _ hk, docLookup_append_ne _ _ _ _ hk]
    · simp only [get_my_feed_run, hd, Option.isNone_some, Bool.false_eq_true, if_false]
      rw [feedLoop_frame _ _ _ _ _ _ _ _ _ hk]

/-- Witness for C10: a one-account store is the exact prefix of the
written document, and a timeline run leaves the unrelated bucket 5 of the
loaded document untouched. -/
theorem c10_merge_frame_witness :
    (get_my_following_run [friendInfoOf (mkFriend 3)] c4FirstPage []).all_data
      = [friendInfoOf (mkFriend 3)]
        ++ (get_my_following_run [friendInfoOf (mkFriend 3)] c4FirstPage []).new_following
    ∧ docLookup (get_my_feed_run 0 (some [(5, [])]) emptyFeedPage []).doc 5
        = docLookup [(5, [])] 5 :=
  ⟨c10_merge_frame.1 _ _ _, c10_merge_frame.2 0 [(5, [])] emptyFeedPage [] 5 (by decide)⟩

/-- C7 counterexample.  A session starting 5 seconds before midnight
(clock 86395, day 0) merges its second page at clock 86425 — calendar
day 1 — yet that page's tweet (id 7) is bucketed under day 0, the key
computed at session start; no day-1 bucket exists after the run. -/
theorem c7_counterexample :
    (get_my_feed_run 86395 none c7FirstPage c7Script).doc.map
        (fun e => (e.1, e.2.map (·.id)))
      = [(0, [5, 7])]
    ∧ dayOf (86395 + 30) = 1
    ∧ docLookup (get_my_feed_run 86395 none c7FirstPage c7Script).doc 1 = none := by
  exact ⟨rfl, rfl, rfl⟩

/-- C7 amended.  The calendar-day key is computed once, at the start of
the timeline collection, in the reference timezone; every merge of the
session appends under that key: after the run, the session-start day's
bucket is its loaded content followed by everything collected this session
(including items merged after midnight), and every other bucket is
untouched. -/
theorem c7_day_key_fixed_at_start :
    (∀ (t0 : Nat) (d : List (Nat × List TweetInfo)) (firstPage : FeedPage)
        (script : List (Nat × FetchResult)),
      docLookup (get_my_feed_run t0 (some d) firstPage script).doc (dayOf t0)
        = some (((docLookup d (dayOf t0)).getD [])
            ++ (get_my_feed_run t0 (some d) firstPage script).all_tweets))
    ∧ (∀ (t0 : Nat) (d : List (Nat × List TweetInfo)) (firstPage : FeedPage)
        (script : List (Nat × FetchResult)) (k : Nat), k ≠ dayOf t0 →
      docLookup (get_my_feed_run t0 (some d) firstPage script).doc k
        = docLookup d k) := by
  constructor
  · intro t0 d firstPage script
    rcases hd : docLookup d (dayOf t0) with _ | l0
    · simp only [get_my_feed_run, hd, Option.isNone_none, if_true, Option.getD_none,
        List.map_nil]
      have hb := feedLoop_bucket (dayOf t0) t0 script firstPage t0 [] []
        (d ++ [(dayOf t0, [])]) []
        (by simpa using docLookup_append_self d _ [] hd)
      simpa using hb
    · simp only [get_my_feed_run, hd, Option.isNone_some, Bool.false_eq_true, if_false,
        Option.getD_some]
      exact feedLoop_bucket (dayOf t0) t0 script firstPage t0 []
        (l0.map (·.id)) d l0 (by simpa using hd)
  · intro t0 d firstPage script k hk
    rcases hd : docLookup d (dayOf t0) with _ | l0
    · simp only [get_my_feed_run, hd, Option.isNone_none, if_true]
      rw [feedLoop_frame _ _ _ _ _ _ _ _ _ hk, docLookup_append_ne _ _ _ _ hk]
    · simp only [get_my_feed_run, hd, Option.isNone_some, Bool.false_eq_true, if_false]
      rw [feedLoop_frame _ _ _ _ _ _ _ _ _ hk]

/-- Witness for C7 amended: the midnight-crossing run of the
counterexample, started from a loaded document, applied to both
conjuncts. -/
theorem c7_day_key_fixed_at_start_witness :
    docLookup (get_my_feed_run 86395 (some c3Loaded) c7FirstPage c7Script).doc (dayOf 86395)
      = some (((docLookup c3Loaded (dayOf 86395)).getD [])
          ++ (get_my_feed_run 86395 (some c3Loaded) c7FirstPage c7Script).all_tweets)
    ∧ docLookup (get_my_feed_run 86395 (some c3Loaded) c7FirstPage c7Script).doc 7
        = docLookup c3Loaded 7 :=
  ⟨c7_day_key_fixed_at_start.1 _ _ _ _, c7_day_key_fixed_at_start.2 _ _ _ _ 7 (by decide)⟩

/-- C6 counterexample.  The timeline collector issues a fetch at clock
3625, past its 3600-second budget deadline (session start at 0): the
budget re-check precedes the randomized wait, and the fetch follows the
wait, so the deadline is overshot. -/
theorem c6_counterexample :
    FeedEv.fetchAt 3625 0 ∈ (get_my_feed_run 0 none emptyFeedPage lateFetchScript).trace
    ∧ session_duration < 3625 := by
  exact ⟨by decide, by decide⟩

/-- C6 amended.  Every fetch the timeline collector issues was approved by
a budget check made before the pre-fetch sleep: at that check fewer than
200 items had been collected (so no fetch is ever issued at or above the
volume target) and the elapsed time was still under the 1-hour budget, so
a fetch can run at most one wait interval `W` past the deadline — with the
source's waits of at most 30 seconds, strictly less than `t0 + 3630` —
but never later.  (The social-graph collector has no time budget at all;
this bound is specific to the timeline resource.) -/
theorem c6_budget_checks :
    ∀ (t0 : Nat) (loaded : Option (List (Nat × List TweetInfo))) (firstPage : FeedPage)
      (script : List (Nat × FetchResult)) (W : Nat),
      (∀ e ∈ script, e.1 ≤ W) →
      ∀ tf c, FeedEv.fetchAt tf c ∈ (get_my_feed_run t0 loaded firstPage script).trace →
        c < target_tweets ∧ tf < t0 + session_duration + W := by
  intro t0 loaded firstPage script W hW tf c hmem
  simp only [get_my_feed_run, List.mem_cons] at hmem
  rcases hmem with h | h
  · simp only [FeedEv.fetchAt.injEq] at h
    obtain ⟨rfl, rfl⟩ := h
    refine ⟨by decide, ?_⟩
    simp only [session_duration]
    omega
  · exact feedLoop_fetch_bound _ _ _ _ _ _ _ _ _ hW tf c h

/-- Witness for C6 amended: a one-page script with a 5-second wait, bound
`W = 30`; its only loop fetch happens at clock 5 with 0 items
collected. -/
theorem c6_budget_checks_witness :
    (0 : Nat) < target_tweets ∧ (5 : Nat) < 0 + session_duration + 30 :=
  c6_budget_checks 0 none emptyFeedPage [(5, FetchResult.page emptyFeedPage)] 30
    (by decide) 5 0 (by decide)

/-- C8 counterexample.  With three accounts already in the store and a run
that collects zero new accounts, the `following_complete` entry records
`following_collected = 3` — the total size of the merged store returned by
`get_my_following` — not the number of items collected during this run,
which is zero. -/
theorem c8_counterexample :
    (main_runner_model c8Inputs).attempted.map (fun e => (e.status, e.following_collected))
      = [("started", none), ("following_complete", some 3),
         ("tweets_complete", none), ("completed", none)]
    ∧ (main_runner_model c8Inputs).new_following = [] := by
  exact ⟨rfl, rfl⟩

theorem isEmpty_count_eq_length (l : List FriendInfo) :
    (if l.isEmpty then 0 else (l.length : Int)) = (l.length : Int) := by
  cases l <;> simp

/-- C8 amended.  When the gate allows the run, the `following_complete`
entry records as `following_collected` the length of `get_my_following`'s
return value, which is the whole merged store (the pre-existing items
followed by this run's new items) — not the newly added count; when the
gate suppresses the run, the `following_skipped` entry records reason
`recent_run` and a zero count, as claimed. -/
theorem c8_logged_following_counts :
    (∀ inp : MainInputs, inp.gate = true →
      (main_runner_model inp).following_result
          = inp.existing ++ (main_runner_model inp).new_following
      ∧ ((main_runner_model inp).attempted.map
            (fun e => (e.status, e.following_collected, e.reason))).get? 1
          = some ("following_complete",
              some ((main_runner_model inp).following_result.length : Int), none))
    ∧ (∀ inp : MainInputs, inp.gate = false →
      ((main_runner_model inp).attempted.map
          (fun e => (e.status, e.following_collected, e.reason))).get? 1
        = some ("following_skipped", some 0, some "recent_run")) := by
  constructor
  · intro inp h
    constructor
    · simp [main_runner_model, h, get_my_following_run]
    · simp [main_runner_model, h, runStmts, runStmt, awaitAll, log_session_data,
        mk_log_entry, isEmpty_count_eq_length]
      intro he
      simp [he]
  · intro inp h
    simp [main_runner_model, h, runStmts, runStmt, awaitAll, log_session_data, mk_log_entry]

/-- Witness for C8 amended: the theorem applied at a concrete allowed run
(three pre-existing accounts, zero new) and at a concrete suppressed
run. -/
theorem c8_logged_following_counts_witness :
    ((main_runner_model c8Inputs).following_result
        = c8Inputs.existing ++ (main_runner_model c8Inputs).new_following
      ∧ ((main_runner_model c8Inputs).attempted.map
            (fun e => (e.status, e.following_collected, e.reason))).get? 1
          = some ("following_complete",
              some ((main_runner_model c8Inputs).following_result.length : Int), none))
    ∧ ((main_runner_model c8SkipInputs).attempted.map
          (fun e => (e.status, e.following_collected, e.reason))).get? 1
        = some ("following_skipped", some 0, some "recent_run") :=
  ⟨c8_logged_following_counts.1 c8Inputs rfl, c8_logged_following_counts.2 c8SkipInputs rfl⟩

end DataIngestion
